import Mathlib

/-!
Shallow embedding of `api/index.go` from go-warhammer-backend.

The process-wide random generator (`math/rand/v2`) is modelled as a stream
`g : Nat → Nat` of raw draws together with a cursor `k : Nat`: every call to
`rand.IntN sides` consumes the draw at the cursor (reduced modulo `sides`, so
that it lies in `[0, sides)` exactly as the generator contract guarantees) and
advances the cursor by one.  Every function that rolls dice therefore takes the
stream and the cursor and returns its Go result paired with the new cursor.
Go `int` values are modelled as `Nat`: every quantity in the simulation core is
a count or a validated field, all of which are non-negative.
-/

namespace Warhammer

/-- Go struct `params` (src/api/index.go, lines 22-29). -/
structure Params where
  DiceNumber : Nat
  TouchDifficulty : Nat
  HurtDifficulty : Nat
  ArmorSave : Nat
  InvuSave : Nat
  RunNumber : Nat
deriving Repr, DecidableEq

/-- Go struct `requestBody` (src/api/index.go, lines 12-20): the decoded JSON
payload, before validation. -/
structure RequestBody where
  Strength : Nat
  Endurance : Nat
  DiceNumber : Nat
  TouchDifficulty : Nat
  ArmorSave : Nat
  InvuSave : Nat
  RunNumber : Nat
deriving Repr, DecidableEq

/-- The `validate` tags on `requestBody` (src/api/index.go, lines 12-20):
`Strength`, `Endurance`, `DiceNumber` are `required,min=1`; `TouchDifficulty`
is `required,min=2,max=6`; `ArmorSave` and `InvuSave` are `min=0,max=6`;
`RunNumber` is `required,min=1,max=1000`.  (`required` rejects the zero value,
which the `min` bounds already imply; `min=0` is vacuous over `Nat`.) -/
def validBody (b : RequestBody) : Prop :=
  1 ≤ b.Strength ∧ 1 ≤ b.Endurance ∧ 1 ≤ b.DiceNumber ∧
  2 ≤ b.TouchDifficulty ∧ b.TouchDifficulty ≤ 6 ∧
  b.ArmorSave ≤ 6 ∧ b.InvuSave ≤ 6 ∧
  1 ≤ b.RunNumber ∧ b.RunNumber ≤ 1000

instance (b : RequestBody) : Decidable (validBody b) := by
  unfold validBody; infer_instance

/-- Go `rollDice` (lines 91-93): `return rand.IntN(sides) + 1`.  Returns the
rolled value and the advanced cursor. -/
def rollDice (g : Nat → Nat) (k : Nat) (sides : Nat) : Nat × Nat :=
  (g k % sides + 1, k + 1)

/-- Go `rollDices` (lines 95-103): the loop appends `rollDice(sides) + 1` for
`i = 0 .. numberOfDices-1`, in order.  Arguments: stream, `sides`, cursor,
`numberOfDices`. -/
def rollDices (g : Nat → Nat) (sides : Nat) : Nat → Nat → List Nat × Nat
  | k, 0 => ([], k)
  | k, n + 1 =>
    let d := rollDice g k sides
    let rest := rollDices g sides d.2 n
    ((d.1 + 1) :: rest.1, rest.2)

/-- Go `getDifficulty` (lines 105-117): the if/else-if chain, first match
wins. -/
def getDifficulty (strength : Nat) (endurance : Nat) : Nat :=
  if strength ≥ endurance * 2 then 2
  else if strength > endurance then 3
  else if strength * 2 ≤ endurance then 6
  else if strength < endurance then 5
  else 4

/-- The counting loop shared verbatim by `getNumberOfTouches` (lines 122-128)
and `getNumberOfHurts` (lines 135-141): scan the results and count those
`≥ difficulty`. -/
def countAtLeast (difficulty : Nat) : List Nat → Nat
  | [] => 0
  | result :: rest =>
    (if result ≥ difficulty then 1 else 0) + countAtLeast difficulty rest

/-- Go `getNumberOfTouches` (lines 119-130): roll `numberOfDices` d6 and count
results `≥ params.TouchDifficulty`. -/
def getNumberOfTouches (g : Nat → Nat) (k : Nat) (p : Params)
    (numberOfDices : Nat) : Nat × Nat :=
  let r := rollDices g 6 k numberOfDices
  (countAtLeast p.TouchDifficulty r.1, r.2)

/-- Go `getNumberOfHurts` (lines 132-143): roll `numberOfDices` d6 and count
results `≥ params.HurtDifficulty`. -/
def getNumberOfHurts (g : Nat → Nat) (k : Nat) (p : Params)
    (numberOfDices : Nat) : Nat × Nat :=
  let r := rollDices g 6 k numberOfDices
  (countAtLeast p.HurtDifficulty r.1, r.2)

/-- The save loop that appears twice, verbatim up to variable names, in
`getNumberOfHurtsAfterSave` (lines 147-152 for armor, lines 156-163 for
invulnerability): for each of `n` incoming wounds roll one d6 and count the
rolls strictly below `save`.  Arguments: stream, `save`, cursor, `n`. -/
def saveLoop (g : Nat → Nat) (save : Nat) : Nat → Nat → Nat × Nat
  | k, 0 => (0, k)
  | k, n + 1 =>
    let d := rollDice g k 6
    let rest := saveLoop g save d.2 n
    ((if d.1 < save then 1 else 0) + rest.1, rest.2)

/-- Go `getNumberOfHurtsAfterSave` (lines 145-169): the armor block runs the
save loop when `ArmorSave ≥ 1` and otherwise passes the count through
unchanged; the invulnerability block then does the same with `InvuSave` on the
armor block's output. -/
def getNumberOfHurtsAfterSave (g : Nat → Nat) (k : Nat) (p : Params)
    (numberOfHurts : Nat) : Nat × Nat :=
  let afterArmor :=
    if p.ArmorSave ≥ 1 then saveLoop g p.ArmorSave k numberOfHurts
    else (numberOfHurts, k)
  let afterInvu :=
    if p.InvuSave ≥ 1 then saveLoop g p.InvuSave afterArmor.2 afterArmor.1
    else (afterArmor.1, afterArmor.2)
  afterInvu

/-- Go `runOnce` (lines 171-177): touches from `DiceNumber` dice, hurts from
the touches, then both save stages. -/
def runOnce (g : Nat → Nat) (k : Nat) (p : Params) : Nat × Nat :=
  let touches := getNumberOfTouches g k p p.DiceNumber
  let hurts := getNumberOfHurts g touches.2 p touches.1
  getNumberOfHurtsAfterSave g hurts.2 p hurts.1

/-- The loop body of Go `runAll` (lines 179-187), recursing on the remaining
iteration count: append `runOnce(params)` results in call order. -/
def runAllAux (g : Nat → Nat) (p : Params) : Nat → Nat → List Nat × Nat
  | k, 0 => ([], k)
  | k, n + 1 =>
    let r := runOnce g k p
    let rest := runAllAux g p r.2 n
    (r.1 :: rest.1, rest.2)

/-- Go `runAll` (lines 179-187): run `runOnce` exactly `RunNumber` times. -/
def runAll (g : Nat → Nat) (k : Nat) (p : Params) : List Nat × Nat :=
  runAllAux g p k p.RunNumber

/-- Happy path of Go `getParamsFromRequest` (lines 48-71) after JSON decoding
and validation succeed: derive `HurtDifficulty` from `Strength` and
`Endurance`, copy every other field from the body. -/
def getParamsFromRequest (body : RequestBody) : Params :=
  { TouchDifficulty := body.TouchDifficulty
    HurtDifficulty := getDifficulty body.Strength body.Endurance
    ArmorSave := body.ArmorSave
    InvuSave := body.InvuSave
    RunNumber := body.RunNumber
    DiceNumber := body.DiceNumber }

/-- The caller-visible state around a `runAll` call: the `params` value held by
the caller (`Handler`, line 43) and the generator cursor.  In Go, `params` is a
struct passed by value, and neither `runAll` nor any function it calls assigns
to any field of its copy - they only read `DiceNumber`, `TouchDifficulty`,
`HurtDifficulty`, `ArmorSave`, `InvuSave` and `RunNumber` - so the only
component of this state a call can change is the generator cursor. -/
structure SimState where
  params : Params
  rng : Nat
deriving Repr, DecidableEq

/-- Go `runAll` viewed as a transformer of the caller-visible state: it returns
the batch and the state after the call, in which the generator cursor has
advanced and `params` is whatever the source assigned to it (nothing ever
does). -/
def runAllS (g : Nat → Nat) (s : SimState) : List Nat × SimState :=
  let r := runAll g s.rng s.params
  (r.1, { params := s.params, rng := r.2 })

/-! ### Cursor and shape lemmas -/

theorem rollDices_snd (g : Nat → Nat) (sides : Nat) :
    ∀ (n k : Nat), (rollDices g sides k n).2 = k + n := by
  intro n
  induction n with
  | zero => intro k; rfl
  | succ m ih =>
    intro k
    simp only [rollDices, rollDice, ih]
    omega

theorem rollDices_fst (g : Nat → Nat) (sides : Nat) :
    ∀ (n k : Nat), (rollDices g sides k n).1
      = (List.range n).map (fun i => (rollDice g (k + i) sides).1 + 1) := by
  intro n
  induction n with
  | zero => intro k; rfl
  | succ m ih =>
    intro k
    have h1 : rollDices g sides k (m + 1)
        = (((rollDice g k sides).1 + 1) :: (rollDices g sides (k + 1) m).1,
           (rollDices g sides (k + 1) m).2) := rfl
    rw [h1]
    dsimp only
    rw [ih (k + 1), List.range_succ_eq_map, List.map_cons, List.map_map]
    refine List.cons_eq_cons.mpr ⟨by simp, ?_⟩
    apply List.map_congr_left
    intro i _
    simp only [Function.comp_apply, Nat.succ_eq_add_one, rollDice]
    have h2 : k + 1 + i = k + (i + 1) := by omega
    rw [h2]

theorem rollDices_length (g : Nat → Nat) (sides : Nat) (n k : Nat) :
    (rollDices g sides k n).1.length = n := by
  rw [rollDices_fst]; simp

theorem rollDices_mem_lower (g : Nat → Nat) (sides : Nat) (n k : Nat) :
    ∀ x ∈ (rollDices g sides k n).1, 2 ≤ x := by
  intro x hx
  rw [rollDices_fst] at hx
  obtain ⟨i, _, rfl⟩ := List.mem_map.mp hx
  simp [rollDice]

theorem rollDices_mem_upper (g : Nat → Nat) (sides : Nat) (n k : Nat)
    (hs : 1 ≤ sides) : ∀ x ∈ (rollDices g sides k n).1, x ≤ sides + 1 := by
  intro x hx
  rw [rollDices_fst] at hx
  obtain ⟨i, _, rfl⟩ := List.mem_map.mp hx
  have := Nat.mod_lt (g (k + i)) (show 0 < sides by omega)
  simp only [rollDice]
  omega

theorem countAtLeast_le_length (d : Nat) :
    ∀ l : List Nat, countAtLeast d l ≤ l.length := by
  intro l
  induction l with
  | nil => simp [countAtLeast]
  | cons x rest ih =>
    simp only [countAtLeast, List.length_cons]
    split <;> omega

theorem countAtLeast_eq_length (d : Nat) :
    ∀ l : List Nat, (∀ x ∈ l, d ≤ x) → countAtLeast d l = l.length := by
  intro l
  induction l with
  | nil => simp [countAtLeast]
  | cons x rest ih =>
    intro h
    have hx : d ≤ x := h x (by simp)
    simp only [countAtLeast, List.length_cons, ge_iff_le, if_pos hx,
      ih fun y hy => h y (by simp [hy])]
    omega

theorem getNumberOfTouches_snd (g : Nat → Nat) (k : Nat) (p : Params)
    (n : Nat) : (getNumberOfTouches g k p n).2 = k + n := by
  simp [getNumberOfTouches, rollDices_snd]

theorem getNumberOfTouches_le (g : Nat → Nat) (k : Nat) (p : Params)
    (n : Nat) : (getNumberOfTouches g k p n).1 ≤ n := by
  have h := countAtLeast_le_length p.TouchDifficulty (rollDices g 6 k n).1
  rw [rollDices_length] at h
  exact h

theorem getNumberOfHurts_snd (g : Nat → Nat) (k : Nat) (p : Params)
    (n : Nat) : (getNumberOfHurts g k p n).2 = k + n := by
  simp [getNumberOfHurts, rollDices_snd]

theorem getNumberOfHurts_le (g : Nat → Nat) (k : Nat) (p : Params)
    (n : Nat) : (getNumberOfHurts g k p n).1 ≤ n := by
  have h := countAtLeast_le_length p.HurtDifficulty (rollDices g 6 k n).1
  rw [rollDices_length] at h
  exact h

theorem saveLoop_snd (g : Nat → Nat) (s : Nat) :
    ∀ (n k : Nat), (saveLoop g s k n).2 = k + n := by
  intro n
  induction n with
  | zero => intro k; rfl
  | succ m ih =>
    intro k
    simp only [saveLoop, rollDice, ih]
    omega

theorem saveLoop_fst (g : Nat → Nat) (s : Nat) :
    ∀ (n k : Nat), (saveLoop g s k n).1
      = (List.range n).countP (fun i => decide ((rollDice g (k + i) 6).1 < s)) := by
  intro n
  induction n with
  | zero => intro k; rfl
  | succ m ih =>
    intro k
    have h1 : saveLoop g s k (m + 1)
        = ((if (rollDice g k 6).1 < s then 1 else 0) + (saveLoop g s (k + 1) m).1,
           (saveLoop g s (k + 1) m).2) := rfl
    rw [h1]
    dsimp only
    rw [ih (k + 1), List.range_succ_eq_map, List.countP_cons, List.countP_map]
    have hfe : (fun i => decide ((rollDice g (k + 1 + i) 6).1 < s))
        = ((fun i => decide ((rollDice g (k + i) 6).1 < s)) ∘ Nat.succ) := by
      funext i
      have h2 : k + 1 + i = k + (i + 1) := by omega
      simp only [Function.comp_apply, Nat.succ_eq_add_one, h2]
    rw [hfe]
    simp only [rollDice, Nat.add_zero, decide_eq_true_eq]
    exact Nat.add_comm _ _

theorem saveLoop_le (g : Nat → Nat) (s : Nat) (n k : Nat) :
    (saveLoop g s k n).1 ≤ n := by
  rw [saveLoop_fst]
  calc (List.range n).countP _ ≤ (List.range n).length := List.countP_le_length _
    _ = n := List.length_range n

theorem getNumberOfHurtsAfterSave_le (g : Nat → Nat) (k : Nat) (p : Params)
    (n : Nat) : (getNumberOfHurtsAfterSave g k p n).1 ≤ n := by
  unfold getNumberOfHurtsAfterSave
  dsimp only
  split
  · split
    · exact le_trans (saveLoop_le _ _ _ _) (saveLoop_le _ _ _ _)
    · exact saveLoop_le _ _ _ _
  · split
    · exact saveLoop_le _ _ _ _
    · exact le_refl _

theorem runOnce_le (g : Nat → Nat) (k : Nat) (p : Params) :
    (runOnce g k p).1 ≤ p.DiceNumber := by
  unfold runOnce
  dsimp only
  calc (getNumberOfHurtsAfterSave g _ p _).1
      ≤ (getNumberOfHurts g _ p (getNumberOfTouches g k p p.DiceNumber).1).1 :=
        getNumberOfHurtsAfterSave_le _ _ _ _
    _ ≤ (getNumberOfTouches g k p p.DiceNumber).1 := getNumberOfHurts_le _ _ _ _
    _ ≤ p.DiceNumber := getNumberOfTouches_le _ _ _ _

/-- The generator cursor before the `i`-th `runOnce` call of the `runAll` loop,
when the loop starts at cursor `k`. -/
def runState (g : Nat → Nat) (p : Params) (k : Nat) : Nat → Nat
  | 0 => k
  | i + 1 => (runOnce g (runState g p k i) p).2

theorem runState_shift (g : Nat → Nat) (p : Params) (k : Nat) :
    ∀ i, runState g p k (i + 1) = runState g p ((runOnce g k p).2) i := by
  intro i
  induction i with
  | zero => rfl
  | succ j ih =>
    show (runOnce g (runState g p k (j + 1)) p).2 = _
    rw [ih]
    rfl

theorem runAllAux_length (g : Nat → Nat) (p : Params) :
    ∀ (n k : Nat), (runAllAux g p k n).1.length = n := by
  intro n
  induction n with
  | zero => intro k; rfl
  | succ m ih =>
    intro k
    show ((runOnce g k p).1 :: (runAllAux g p (runOnce g k p).2 m).1).length = m + 1
    simp [ih]

theorem runAllAux_getElem (g : Nat → Nat) (p : Params) :
    ∀ (n k i : Nat), i < n →
      (runAllAux g p k n).1[i]? = some ((runOnce g (runState g p k i) p).1) := by
  intro n
  induction n with
  | zero => intro k i h; omega
  | succ m ih =>
    intro k i h
    rcases i with _ | j
    · show ((runOnce g k p).1 :: (runAllAux g p (runOnce g k p).2 m).1)[0]?
          = some ((runOnce g (runState g p k 0) p).1)
      rw [List.getElem?_cons_zero]
      simp [runState]
    · calc (runAllAux g p k (m + 1)).1[j + 1]?
          = (runAllAux g p (runOnce g k p).2 m).1[j]? := by
            show ((runOnce g k p).1 :: (runAllAux g p (runOnce g k p).2 m).1)[j + 1]? = _
            simp
        _ = some ((runOnce g (runState g p ((runOnce g k p).2) j) p).1) :=
            ih (runOnce g k p).2 j (by omega)
        _ = some ((runOnce g (runState g p k (j + 1)) p).1) := by
            rw [runState_shift]

theorem runAllAux_mem_le (g : Nat → Nat) (p : Params) :
    ∀ (n k : Nat), ∀ r ∈ (runAllAux g p k n).1, r ≤ p.DiceNumber := by
  intro n
  induction n with
  | zero => intro k r hr; simp [runAllAux] at hr
  | succ m ih =>
    intro k r hr
    have hr2 : r ∈ (runOnce g k p).1 :: (runAllAux g p (runOnce g k p).2 m).1 := hr
    rcases List.mem_cons.mp hr2 with h | h
    · subst h; exact runOnce_le g k p
    · exact ih (runOnce g k p).2 r h

theorem runAll_length (g : Nat → Nat) (k : Nat) (p : Params) :
    (runAll g k p).1.length = p.RunNumber :=
  runAllAux_length g p p.RunNumber k

/-! ### Concrete demonstration values used by the witnesses -/

/-- A concrete raw-draw stream. -/
def demoStream : Nat → Nat := fun n => n

/-- A concrete parameter set: 10 dice, touch 4, hurt 4, saves disabled, 3 runs. -/
def demoParams : Params := ⟨10, 4, 4, 0, 0, 3⟩

/-- A concrete parameter set with both save stages enabled (armor 6, invu 5). -/
def demoSaveParams : Params := ⟨10, 4, 4, 6, 5, 1⟩

/-- A concrete parameter set with touch and hurt difficulty 2. -/
def demoEasyParams : Params := ⟨5, 2, 2, 0, 0, 1⟩

/-- A concrete request body that passes every validation rule. -/
def demoBody : RequestBody := ⟨4, 4, 10, 4, 3, 0, 100⟩

/-! ### Claim theorems -/

/-- C1: for every `count ≥ 0` and `sides ≥ 1`, `rollDices` returns exactly
`count` results, the `i`-th being the `i`-th `rollDice sides` draw plus 1, so
every element lies in the inclusive range `[2, sides + 1]`. -/
theorem claim_rollDices_shifted_batch (g : Nat → Nat) (k count sides : Nat)
    (hs : 1 ≤ sides) :
    (rollDices g sides k count).1.length = count ∧
    (rollDices g sides k count).1
      = (List.range count).map (fun i => (rollDice g (k + i) sides).1 + 1) ∧
    ∀ x ∈ (rollDices g sides k count).1, 2 ≤ x ∧ x ≤ sides + 1 := by
  refine ⟨rollDices_length g sides count k, rollDices_fst g sides count k, ?_⟩
  intro x hx
  exact ⟨rollDices_mem_lower g sides count k x hx,
    rollDices_mem_upper g sides count k hs x hx⟩

theorem claim_rollDices_shifted_batch_witness :
    (rollDices demoStream 6 0 3).1.length = 3 ∧
    (rollDices demoStream 6 0 3).1
      = (List.range 3).map (fun i => (rollDice demoStream (0 + i) 6).1 + 1) ∧
    ∀ x ∈ (rollDices demoStream 6 0 3).1, 2 ≤ x ∧ x ≤ 6 + 1 :=
  claim_rollDices_shifted_batch demoStream 0 3 6 (by decide)

/-- C2: with `RunNumber = N ≥ 1` and `DiceNumber = d ≥ 1`, `runAll` returns
exactly `N` outcomes, the `i`-th being the result of the `i`-th `runOnce` call
in call order, and every outcome is at most `d`. -/
theorem claim_runAll_batch (g : Nat → Nat) (k : Nat) (p : Params)
    (_hN : 1 ≤ p.RunNumber) (_hd : 1 ≤ p.DiceNumber) :
    (runAll g k p).1.length = p.RunNumber ∧
    (∀ i, i < p.RunNumber →
      (runAll g k p).1[i]? = some ((runOnce g (runState g p k i) p).1)) ∧
    ∀ r ∈ (runAll g k p).1, r ≤ p.DiceNumber := by
  refine ⟨runAll_length g k p, ?_, ?_⟩
  · intro i hi
    exact runAllAux_getElem g p p.RunNumber k i hi
  · exact runAllAux_mem_le g p p.RunNumber k

theorem claim_runAll_batch_witness :
    (runAll demoStream 0 demoParams).1.length = demoParams.RunNumber ∧
    (∀ i, i < demoParams.RunNumber →
      (runAll demoStream 0 demoParams).1[i]?
        = some ((runOnce demoStream (runState demoStream demoParams 0 i)
            demoParams).1)) ∧
    ∀ r ∈ (runAll demoStream 0 demoParams).1, r ≤ demoParams.DiceNumber :=
  claim_runAll_batch demoStream 0 demoParams (by decide) (by decide)

/-- C3: for positive `strength` and `endurance`, `getDifficulty` follows the
ordered first-match-wins table (2 when `strength ≥ 2·endurance`, else 3 when
`strength > endurance`, else 6 when `2·strength ≤ endurance`, else 5 when
`strength < endurance`, else 4), always lands in `{2,3,4,5,6}`, satisfies the
five spot checks, and returns the fallback 4 exactly when the inputs are
equal. -/
theorem claim_getDifficulty_table :
    (∀ s e : Nat, 0 < s → 0 < e → getDifficulty s e =
      (if 2 * e ≤ s then 2 else if e < s then 3 else if 2 * s ≤ e then 6
       else if s < e then 5 else 4)) ∧
    (∀ s e : Nat, 0 < s → 0 < e →
      (getDifficulty s e = 2 ∨ getDifficulty s e = 3 ∨ getDifficulty s e = 4 ∨
       getDifficulty s e = 5 ∨ getDifficulty s e = 6) ∧
      (getDifficulty s e = 4 ↔ s = e)) ∧
    (∀ s : Nat, 0 < s → getDifficulty s s = 4) ∧
    getDifficulty 10 5 = 2 ∧ getDifficulty 6 5 = 3 ∧
    getDifficulty 5 6 = 5 ∧ getDifficulty 5 11 = 6 := by
  refine ⟨?_, ?_, ?_, by decide, by decide, by decide, by decide⟩
  · intro s e hs he
    unfold getDifficulty
    split_ifs <;> omega
  · intro s e hs he
    constructor <;> (unfold getDifficulty; split_ifs <;> omega)
  · intro s hs
    unfold getDifficulty
    split_ifs <;> omega

theorem claim_getDifficulty_table_witness :
    getDifficulty 3 3 = 4 ∧ (getDifficulty 2 5 = 4 ↔ 2 = 5) :=
  ⟨claim_getDifficulty_table.2.2.1 3 (by decide),
   (claim_getDifficulty_table.2.1 2 5 (by decide) (by decide)).2⟩

/-- C4: with `ArmorSave ≥ 1`, the armor stage outputs exactly the number of the
`n` incoming wounds whose d6 roll is strictly below `ArmorSave`; the
invulnerability stage applies the identical mechanic with `InvuSave` to the
survivors; and with `ArmorSave = 6` a wound passes exactly when its roll is at
most 5 (roll 5 passes, roll 6 is absorbed). -/
theorem claim_save_stage_mechanic (g : Nat → Nat) (k : Nat) (p : Params)
    (n : Nat) (hA : p.ArmorSave ≥ 1) :
    (p.InvuSave ≥ 1 →
      (getNumberOfHurtsAfterSave g k p n).1
        = (List.range ((List.range n).countP
            (fun i => decide ((rollDice g (k + i) 6).1 < p.ArmorSave)))).countP
            (fun j => decide ((rollDice g (k + n + j) 6).1 < p.InvuSave))) ∧
    (p.InvuSave = 0 →
      (getNumberOfHurtsAfterSave g k p n).1
        = (List.range n).countP
            (fun i => decide ((rollDice g (k + i) 6).1 < p.ArmorSave))) ∧
    (p.ArmorSave = 6 →
      (saveLoop g p.ArmorSave k n).1
        = (List.range n).countP (fun i => decide ((rollDice g (k + i) 6).1 ≤ 5))) := by
  refine ⟨?_, ?_, ?_⟩
  · intro hI
    unfold getNumberOfHurtsAfterSave
    dsimp only
    rw [if_pos hA, if_pos hI, saveLoop_snd g p.ArmorSave n k,
      saveLoop_fst g p.ArmorSave n k, saveLoop_fst g p.InvuSave]
  · intro hI
    unfold getNumberOfHurtsAfterSave
    dsimp only
    rw [if_pos hA, hI, if_neg (by omega : ¬ (0 : Nat) ≥ 1)]
    exact saveLoop_fst g p.ArmorSave n k
  · intro h6
    rw [saveLoop_fst g p.ArmorSave n k]
    have hfe : (fun i => decide ((rollDice g (k + i) 6).1 < p.ArmorSave))
        = (fun i => decide ((rollDice g (k + i) 6).1 ≤ 5)) := by
      funext i
      rw [decide_eq_decide, h6]
      omega
    rw [hfe]

theorem claim_save_stage_mechanic_witness :
    (getNumberOfHurtsAfterSave demoStream 0 demoSaveParams 7).1
      = (List.range ((List.range 7).countP
          (fun i => decide ((rollDice demoStream (0 + i) 6).1
            < demoSaveParams.ArmorSave)))).countP
          (fun j => decide ((rollDice demoStream (0 + 7 + j) 6).1
            < demoSaveParams.InvuSave)) ∧
    (saveLoop demoStream demoSaveParams.ArmorSave 0 7).1
      = (List.range 7).countP
          (fun i => decide ((rollDice demoStream (0 + i) 6).1 ≤ 5)) :=
  ⟨(claim_save_stage_mechanic demoStream 0 demoSaveParams 7 (by decide)).1
      (by decide),
   (claim_save_stage_mechanic demoStream 0 demoSaveParams 7 (by decide)).2.2
      (by decide)⟩

/-- C5: with both saves set to 0, `getNumberOfHurtsAfterSave` is the identity
on the wound count (and consumes no draws), so the trial outcome equals the
hurt-stage count exactly. -/
theorem claim_saves_disabled_identity (g : Nat → Nat) (k : Nat) (p : Params)
    (n : Nat) (hA : p.ArmorSave = 0) (hI : p.InvuSave = 0) :
    getNumberOfHurtsAfterSave g k p n = (n, k) ∧
    (runOnce g k p).1
      = (getNumberOfHurts g (k + p.DiceNumber) p
          (getNumberOfTouches g k p p.DiceNumber).1).1 := by
  have h1 : ∀ (m j : Nat), getNumberOfHurtsAfterSave g j p m = (m, j) := by
    intro m j
    unfold getNumberOfHurtsAfterSave
    simp [hA, hI]
  refine ⟨h1 n k, ?_⟩
  unfold runOnce
  dsimp only
  rw [h1, getNumberOfTouches_snd]

theorem claim_saves_disabled_identity_witness :
    getNumberOfHurtsAfterSave demoStream 0 demoParams 7 = (7, 0) ∧
    (runOnce demoStream 0 demoParams).1
      = (getNumberOfHurts demoStream (0 + demoParams.DiceNumber) demoParams
          (getNumberOfTouches demoStream 0 demoParams
            demoParams.DiceNumber).1).1 :=
  claim_saves_disabled_identity demoStream 0 demoParams 7 (by decide) (by decide)

/-- C6: the touch and hurt stages are total and return a count in `[0, n]` for
any number of dice `n`, and at `n = 0` they draw no dice and return 0. -/
theorem claim_stage_counts_total (g : Nat → Nat) (k : Nat) (p : Params)
    (n : Nat) :
    (getNumberOfTouches g k p n).1 ≤ n ∧
    (getNumberOfHurts g k p n).1 ≤ n ∧
    getNumberOfTouches g k p 0 = (0, k) ∧
    getNumberOfHurts g k p 0 = (0, k) :=
  ⟨getNumberOfTouches_le g k p n, getNumberOfHurts_le g k p n, rfl, rfl⟩

/-- C7: every `rollDices` element is at least 2 (a result representing face 1
never occurs), so a touch or hurt difficulty of 2 passes all `n` dice
deterministically. -/
theorem claim_difficulty_two_all_pass (g : Nat → Nat) (k : Nat) (p : Params)
    (n : Nat) :
    (p.TouchDifficulty = 2 → (getNumberOfTouches g k p n).1 = n) ∧
    (p.HurtDifficulty = 2 → (getNumberOfHurts g k p n).1 = n) ∧
    ∀ x ∈ (rollDices g 6 k n).1, 2 ≤ x := by
  refine ⟨?_, ?_, rollDices_mem_lower g 6 n k⟩
  · intro h
    unfold getNumberOfTouches
    dsimp only
    rw [h, countAtLeast_eq_length 2 _ (rollDices_mem_lower g 6 n k),
      rollDices_length]
  · intro h
    unfold getNumberOfHurts
    dsimp only
    rw [h, countAtLeast_eq_length 2 _ (rollDices_mem_lower g 6 n k),
      rollDices_length]

theorem claim_difficulty_two_all_pass_witness :
    (getNumberOfTouches demoStream 0 demoEasyParams 5).1 = 5 ∧
    (getNumberOfHurts demoStream 0 demoEasyParams 5).1 = 5 :=
  ⟨(claim_difficulty_two_all_pass demoStream 0 demoEasyParams 5).1 rfl,
   (claim_difficulty_two_all_pass demoStream 0 demoEasyParams 5).2.1 rfl⟩

/-- C8: for every `sides ≥ 1` and every random state, `rollDice` returns a
value in the inclusive range `[1, sides]` and consumes exactly one draw. -/
theorem claim_rollDice_range (g : Nat → Nat) (k : Nat) (sides : Nat)
    (hs : 1 ≤ sides) :
    1 ≤ (rollDice g k sides).1 ∧ (rollDice g k sides).1 ≤ sides ∧
    (rollDice g k sides).2 = k + 1 := by
  have h := Nat.mod_lt (g k) (show 0 < sides by omega)
  refine ⟨by simp [rollDice], ?_, rfl⟩
  simp only [rollDice]
  omega

theorem claim_rollDice_range_witness :
    1 ≤ (rollDice demoStream 5 6).1 ∧ (rollDice demoStream 5 6).1 ≤ 6 ∧
    (rollDice demoStream 5 6).2 = 5 + 1 :=
  claim_rollDice_range demoStream 5 6 (by decide)

/-- C9: for every request body that passes validation, `getParamsFromRequest`
sets `HurtDifficulty` to `getDifficulty Strength Endurance` and copies
`DiceNumber`, `TouchDifficulty`, `ArmorSave`, `InvuSave` and `RunNumber` from
the body unchanged. -/
theorem claim_params_from_request (b : RequestBody) (_h : validBody b) :
    (getParamsFromRequest b).HurtDifficulty
      = getDifficulty b.Strength b.Endurance ∧
    (getParamsFromRequest b).DiceNumber = b.DiceNumber ∧
    (getParamsFromRequest b).TouchDifficulty = b.TouchDifficulty ∧
    (getParamsFromRequest b).ArmorSave = b.ArmorSave ∧
    (getParamsFromRequest b).InvuSave = b.InvuSave ∧
    (getParamsFromRequest b).RunNumber = b.RunNumber :=
  ⟨rfl, rfl, rfl, rfl, rfl, rfl⟩

theorem claim_params_from_request_witness :
    (getParamsFromRequest demoBody).HurtDifficulty
      = getDifficulty demoBody.Strength demoBody.Endurance ∧
    (getParamsFromRequest demoBody).DiceNumber = demoBody.DiceNumber ∧
    (getParamsFromRequest demoBody).TouchDifficulty = demoBody.TouchDifficulty ∧
    (getParamsFromRequest demoBody).ArmorSave = demoBody.ArmorSave ∧
    (getParamsFromRequest demoBody).InvuSave = demoBody.InvuSave ∧
    (getParamsFromRequest demoBody).RunNumber = demoBody.RunNumber :=
  claim_params_from_request demoBody (by decide)

/-- C10: `runAll` leaves the caller-visible `params` value unchanged (only the
generator cursor advances), and a second `runAll` from the post-call state with
the same parameters is an equally valid batch of `RunNumber` outcomes. -/
theorem claim_runAll_params_frame (g : Nat → Nat) (s : SimState) :
    (runAllS g s).2.params = s.params ∧
    (runAllS g s).1.length = s.params.RunNumber ∧
    (runAllS g ((runAllS g s).2)).1.length = s.params.RunNumber :=
  ⟨rfl, runAll_length g s.rng s.params,
   runAll_length g (runAllS g s).2.rng s.params⟩

end Warhammer
